import Mathlib

/-!
Verification of the command-execution core of the sandbox runtime.

The source under scrutiny is a small Python service exposing two
operations over a command string and an optional timeout:

* `execute_command` — parses the command with `shlex.split`, runs it to
  completion (or timeout) with `subprocess.run`, and normalises every
  failure into a structured response `(stdout, stderr, exit_code)`.
* `event_generator` — the streaming variant: a polling loop that drains
  stdout and stderr line by line, checks the elapsed wall clock against
  the timeout on each iteration, and yields a sequence of events
  (`stdout`, `stderr`, `error`, `done`).

The embedding below translates those functions into pure Lean
definitions.  The inherently environmental parts — whether the spawn
succeeds, what the child writes, when lines become available to the
polling reads, when the exit status becomes observable — are supplied
by explicit "world" records (`RunWorld`, `StreamWorld`), so that each
Python function becomes a total function of its arguments and a world.
-/

/-- The whitespace set of the lexer: space, tab, carriage return, newline
(`shlex.whitespace`). -/
def isWs (c : Char) : Bool :=
  c = ' ' || c = '\t' || c = '\r' || c = '\n'

/-- Single-quote character (written via its code point to keep the file
free of quote-literals). -/
def squote : Char := Char.ofNat 39

/-- Double-quote character. -/
def dquote : Char := Char.ofNat 34

/-- Backslash, the escape character of the lexer (`shlex.escape`). -/
def bslash : Char := '\\'

/-- Lexer state of `shlex.read_token` (posix mode, `whitespace_split`):
`ws` is the inter-token state (Python state `' '`), `word` is the
plain-word state (`'a'`), `quote q` means inside a `q`-quoted region,
and `esc fq` means the previous character was a backslash, with `fq`
recording the surrounding quote state to return to (`none` when the
backslash occurred outside quotes, Python `escapedstate`). -/
inductive LexState where
  | ws : LexState
  | word : LexState
  | quote : Char → LexState
  | esc : Option Char → LexState
deriving DecidableEq

/-- The state machine of `shlex.read_token` with `posix=True`,
`whitespace_split=True` and comments disabled, flattened over the whole
input: `tok` is the token built so far, `q` the `quoted` flag of the
current token, `acc` the tokens already emitted.  On exhausted input an
open quote raises `No closing quotation` and a trailing backslash
raises `No escaped character`, exactly as `shlex` does; otherwise the
pending token is emitted when it is non-empty or was quoted. -/
def shlex_run : List Char → LexState → List Char → Bool → List (List Char) →
    Except String (List (List Char))
  | [], st, tok, q, acc =>
    match st with
    | LexState.quote _ => Except.error "No closing quotation"
    | LexState.esc _ => Except.error "No escaped character"
    | _ => if tok ≠ [] || q then Except.ok (acc ++ [tok]) else Except.ok acc
  | c :: cs, LexState.ws, tok, q, acc =>
    if isWs c then
      if tok ≠ [] || q then shlex_run cs LexState.ws [] false (acc ++ [tok])
      else shlex_run cs LexState.ws tok q acc
    else if c = bslash then shlex_run cs (LexState.esc none) tok q acc
    else if c = squote || c = dquote then shlex_run cs (LexState.quote c) tok q acc
    else shlex_run cs LexState.word (tok ++ [c]) q acc
  | c :: cs, LexState.word, tok, q, acc =>
    if isWs c then
      if tok ≠ [] || q then shlex_run cs LexState.ws [] false (acc ++ [tok])
      else shlex_run cs LexState.ws tok q acc
    else if c = squote || c = dquote then shlex_run cs (LexState.quote c) tok q acc
    else if c = bslash then shlex_run cs (LexState.esc none) tok q acc
    else shlex_run cs LexState.word (tok ++ [c]) q acc
  | c :: cs, LexState.quote qc, tok, _, acc =>
    if c = qc then shlex_run cs LexState.word tok true acc
    else if qc = dquote ∧ c = bslash then shlex_run cs (LexState.esc (some qc)) tok true acc
    else shlex_run cs (LexState.quote qc) (tok ++ [c]) true acc
  | c :: cs, LexState.esc fq, tok, q, acc =>
    match fq with
    | some qc =>
      if c ≠ bslash ∧ c ≠ qc then
        shlex_run cs (LexState.quote qc) (tok ++ [bslash, c]) q acc
      else shlex_run cs (LexState.quote qc) (tok ++ [c]) q acc
    | none => shlex_run cs LexState.word (tok ++ [c]) q acc

/-- `shlex.split(command)`: run the lexer over the characters of the
command string; a `ValueError` becomes `Except.error` carrying the
exception text. -/
def shlex_split (s : String) : Except String (List String) :=
  (shlex_run s.data LexState.ws [] false []).map (fun ts => ts.map String.mk)

/-- `line.rstrip(backslash n)`: drop every trailing newline character. -/
def rstrip_nl (s : String) : String :=
  String.mk ((s.data.reverse.dropWhile (fun c => c = '\n')).reverse)

/-- Response of the synchronous `/execute` endpoint
(Python `ExecuteResponse`). -/
structure ExecuteResponse where
  stdout : String
  stderr : String
  exit_code : Int
deriving DecidableEq

/-- Environment of one synchronous run: whether process creation
succeeds (executable present, permissions fine), the text of the raised
exception when it does not, the wall-clock seconds the child takes, and
the child's captured streams and exit status when run to completion. -/
structure RunWorld where
  spawnOk : Bool
  spawnErrMsg : String
  runtime : Nat
  stdout : String
  stderr : String
  exitCode : Int
deriving DecidableEq

/-- Text of the exception `subprocess.run` raises on an empty argument
vector (an `IndexError` reading `args[0]`). -/
def empty_argv_run_msg : String := "list index out of range"

/-- Text of the exception `create_subprocess_exec` raises when called
with no arguments at all (a `TypeError` for the missing program). -/
def empty_argv_stream_msg : String := "missing required argument: program"

/-- The generic failure message of the `except Exception` handlers:
`Failed to execute command: ...`. -/
def fail_msg (m : String) : String := "Failed to execute command: " ++ m

/-- The timeout message `Command timed out after N seconds`. -/
def timeout_msg (n : Nat) : String :=
  "Command timed out after " ++ toString n ++ " seconds"

/-- The body of `execute_command`: split the command, run it from the
sandbox root, and normalise the three failure shapes.  A parse error or
an empty argument vector or a spawn failure all land in the generic
`except Exception` handler (exit 1); `subprocess.TimeoutExpired` —
raised exactly when a timeout is configured and the child outlives
it — lands in the timeout handler (exit 124); otherwise the child's
real streams and exit status are returned. -/
def execute_command (cmd : String) (t : Option Nat) (w : RunWorld) : ExecuteResponse :=
  match shlex_split cmd with
  | Except.error e => ⟨"", fail_msg e, 1⟩
  | Except.ok [] => ⟨"", fail_msg empty_argv_run_msg, 1⟩
  | Except.ok (_ :: _) =>
    if w.spawnOk then
      match t with
      | some n =>
        if n < w.runtime then ⟨"", timeout_msg n, 124⟩
        else ⟨w.stdout, w.stderr, w.exitCode⟩
      | none => ⟨w.stdout, w.stderr, w.exitCode⟩
    else ⟨"", fail_msg w.spawnErrMsg, 1⟩

/-- Events of the SSE stream. The `done` payload abstracts the JSON
object carrying the exit code. -/
inductive Event where
  | stdout : String → Event
  | stderr : String → Event
  | error : String → Event
  | done : Int → Event
deriving DecidableEq

/-- Actions of the streaming generator, in program order: killing the
child, reaping it (collecting its exit status with `await wait`), and
yielding an event to the caller. Recording kills and reaps alongside
emissions lets the termination-ordering discipline be stated. -/
inductive Act where
  | kill : Act
  | reap : Act
  | emit : Event → Act
deriving DecidableEq

/-- What the environment presents to one iteration of the streaming
loop: the monotonic-clock reading (seconds since start) at the top of
the iteration; an internal fault (some exception text) if the iteration
raises; whether the bounded 0.1 s `readline` on each channel returns
(rather than timing out with nothing available yet); and whether the
0.01 s `wait` observes the child's termination. -/
structure IterObs where
  elapsed : Nat
  fault : Option String
  stdoutReady : Bool
  stderrReady : Bool
  exitObserved : Bool
deriving DecidableEq

/-- Environment of one streaming run: spawn outcome, the raw lines the
child writes to each channel (as `readline` returns them, trailing
newline included), its exit status, and the per-iteration observations. -/
structure StreamWorld where
  spawnOk : Bool
  spawnErrMsg : String
  stdoutLines : List String
  stderrLines : List String
  exitCode : Int
  sched : List IterObs
deriving DecidableEq

/-- The guard `if request.timeout and elapsed >= request.timeout`: a
missing timeout and the falsy timeout `0` both skip the check. -/
def timeout_triggered (t : Option Nat) (elapsed : Nat) : Bool :=
  match t with
  | none => false
  | some n => decide (n ≠ 0) && decide (n ≤ elapsed)

/-- One bounded `readline` on a channel: when the read completes and a
line is pending, the line is consumed and emitted newline-stripped;
when the read completes at end of stream it returns the empty (falsy)
bytes and nothing is emitted; when the 0.1 s bound expires the
`TimeoutError` is swallowed. Returns the remaining lines and the
actions performed. -/
def read_line (ready : Bool) (lines : List String) (mk : String → Event) :
    List String × List Act :=
  if ready then
    match lines with
    | [] => ([], [])
    | l :: ls => (ls, [Act.emit (mk (rstrip_nl l))])
  else (lines, [])

/-- The `while process.returncode is None` loop of `event_generator`.
Each iteration: timeout check (kill, reap, `error`, `done 124`, return);
then any internal fault reaches the enclosing handler (kill, reap,
`error`, `done 1`); otherwise one bounded read per channel and the
0.01 s exit-status poll, the loop ending with `done` carrying the real
exit status once termination has been observed. `none` means the
supplied observations ran out while the loop was still running. -/
def event_loop (t : Option Nat) (code : Int) :
    List IterObs → List String → List String → Option (List Act)
  | [], _, _ => none
  | o :: rest, outs, errs =>
    if timeout_triggered t o.elapsed then
      some [Act.kill, Act.reap,
            Act.emit (Event.error (timeout_msg (t.getD 0))),
            Act.emit (Event.done 124)]
    else
      match o.fault with
      | some m =>
        some [Act.kill, Act.reap,
              Act.emit (Event.error (fail_msg m)),
              Act.emit (Event.done 1)]
      | none =>
        if o.exitObserved then
          some ((read_line o.stdoutReady outs Event.stdout).2 ++
                (read_line o.stderrReady errs Event.stderr).2 ++
                [Act.emit (Event.done code)])
        else
          Option.map
            (fun tl => (read_line o.stdoutReady outs Event.stdout).2 ++
                       (read_line o.stderrReady errs Event.stderr).2 ++ tl)
            (event_loop t code rest
              (read_line o.stdoutReady outs Event.stdout).1
              (read_line o.stderrReady errs Event.stderr).1)

/-- The whole `event_generator`: a parse error or an empty argument
vector or a spawn failure raises before the process exists, so the
handler yields `error` then `done 1` without killing anything; on a
successful spawn the polling loop runs. -/
def event_generator (cmd : String) (t : Option Nat) (w : StreamWorld) :
    Option (List Act) :=
  match shlex_split cmd with
  | Except.error e =>
    some [Act.emit (Event.error (fail_msg e)), Act.emit (Event.done 1)]
  | Except.ok [] =>
    some [Act.emit (Event.error (fail_msg empty_argv_stream_msg)),
          Act.emit (Event.done 1)]
  | Except.ok (_ :: _) =>
    if w.spawnOk then event_loop t w.exitCode w.sched w.stdoutLines w.stderrLines
    else some [Act.emit (Event.error (fail_msg w.spawnErrMsg)),
               Act.emit (Event.done 1)]

/-- The event carried by an action, if any. -/
def Act.eventOf : Act → Option Event
  | Act.emit e => some e
  | _ => none

/-- The caller-visible event sequence of an action trace. -/
def events_of (acts : List Act) : List Event :=
  acts.filterMap Act.eventOf

/-- An event that is neither terminal nor an error report. -/
def Event.isPlain : Event → Bool
  | Event.stdout _ => true
  | Event.stderr _ => true
  | _ => false

/-- The terminal-shape invariant of a stream: some line events, then
optionally a single `error`, then exactly one `done`, which is last. -/
def good_shape (evs : List Event) : Prop :=
  ∃ body err c, evs = body ++ err ++ [Event.done c] ∧
    (∀ e ∈ body, Event.isPlain e = true) ∧
    (err = [] ∨ ∃ m, err = [Event.error m])

/-! ## Helper lemmas -/

/-- Running the lexer over whitespace only, from the inter-token state
with no pending token, emits nothing. -/
theorem shlex_run_ws_only (cs : List Char) (h : ∀ c ∈ cs, isWs c = true) :
    ∀ acc, shlex_run cs LexState.ws [] false acc = Except.ok acc := by
  induction cs with
  | nil => intro acc; simp [shlex_run]
  | cons c cs ih =>
    intro acc
    have hc : isWs c = true := h c (by simp)
    simp only [shlex_run, hc, if_true]
    have hrec := ih (fun d hd => h d (by simp [hd])) acc
    simpa using hrec

/-! ## Claims about the synchronous executor -/

/-- C1: `execute_command` is a total function into `ExecuteResponse`
(the embedding never escapes with an exception), and on every input the
exit code it reports is the child's real exit status, the timeout
sentinel 124, or the normalized failure code 1. -/
theorem execute_exit_code_vocabulary (cmd : String) (t : Option Nat) (w : RunWorld) :
    (execute_command cmd t w).exit_code = w.exitCode ∨
    (execute_command cmd t w).exit_code = 124 ∨
    (execute_command cmd t w).exit_code = 1 := by
  unfold execute_command
  cases shlex_split cmd with
  | error e => simp
  | ok args =>
    cases args with
    | nil => simp
    | cons a l =>
      by_cases hs : w.spawnOk
      · simp only [hs, if_true]
        cases t with
        | none => simp
        | some n =>
          by_cases hr : n < w.runtime
          · simp [hr]
          · simp [hr]
      · simp [hs]

/-- C2: whenever the parsed command spawns and its runtime exceeds the
configured timeout `n`, the response is exactly empty stdout, the
message `Command timed out after n seconds`, and exit code 124. -/
theorem execute_timeout_result (cmd : String) (n : Nat) (w : RunWorld)
    (a : String) (l : List String)
    (hp : shlex_split cmd = Except.ok (a :: l)) (hs : w.spawnOk = true)
    (hr : n < w.runtime) :
    execute_command cmd (some n) w = ⟨"", timeout_msg n, 124⟩ := by
  unfold execute_command
  rw [hp]
  simp [hs, hr]

/-- C2 witness: the concrete scenario of the specification,
`Execute("sleep 5", timeout=2)`. -/
theorem execute_timeout_result_witness :
    execute_command "sleep 5" (some 2) ⟨true, "", 5, "", "", 0⟩ =
      ⟨"", "Command timed out after 2 seconds", 124⟩ :=
  execute_timeout_result "sleep 5" 2 ⟨true, "", 5, "", "", 0⟩ "sleep" ["5"]
    rfl rfl (by decide)

/-- C6: with no timeout, every command that parses and spawns is
reported verbatim: the child's full captured stdout and stderr and its
real exit status. -/
theorem execute_no_timeout_real_result (cmd : String) (w : RunWorld)
    (a : String) (l : List String)
    (hp : shlex_split cmd = Except.ok (a :: l)) (hs : w.spawnOk = true) :
    execute_command cmd none w = ⟨w.stdout, w.stderr, w.exitCode⟩ := by
  unfold execute_command
  rw [hp]
  simp [hs]

/-- C6 witness: `Execute("echo hello")` with the child writing
`hello` and a newline and exiting 0. -/
theorem execute_no_timeout_real_result_witness :
    execute_command "echo hello" none ⟨true, "", 1, "hello\n", "", 0⟩ =
      ⟨"hello\n", "", 0⟩ :=
  execute_no_timeout_real_result "echo hello" ⟨true, "", 1, "hello\n", "", 0⟩
    "echo" ["hello"] rfl rfl

/-- C9: a command string that is empty or entirely whitespace parses to
an empty argument vector, whose spawn attempt raises; `execute_command`
reports empty stdout, a descriptive failure message and exit code 1,
and `event_generator` emits exactly one `error` event followed by one
`done` event with exit code 1. -/
theorem blank_command_rejected (cmd : String) (t : Option Nat)
    (w : RunWorld) (sw : StreamWorld)
    (h : ∀ c ∈ cmd.data, isWs c = true) :
    execute_command cmd t w = ⟨"", fail_msg empty_argv_run_msg, 1⟩ ∧
    event_generator cmd t sw =
      some [Act.emit (Event.error (fail_msg empty_argv_stream_msg)),
            Act.emit (Event.done 1)] := by
  have hsplit : shlex_split cmd = Except.ok [] := by
    unfold shlex_split
    rw [shlex_run_ws_only cmd.data h []]
    rfl
  constructor
  · unfold execute_command
    rw [hsplit]
  · unfold event_generator
    rw [hsplit]

/-- C9 witness: the whitespace-only command of three spaces. -/
theorem blank_command_rejected_witness :
    execute_command "   " none ⟨true, "", 1, "x", "y", 0⟩ =
      ⟨"", fail_msg empty_argv_run_msg, 1⟩ ∧
    event_generator "   " none ⟨true, "", [], [], 0, []⟩ =
      some [Act.emit (Event.error (fail_msg empty_argv_stream_msg)),
            Act.emit (Event.done 1)] :=
  blank_command_rejected "   " none ⟨true, "", 1, "x", "y", 0⟩
    ⟨true, "", [], [], 0, []⟩ (by decide)

/-- C10: `execute_command` is deterministic in the command's observable
behaviour: two invocations of the same command with no timeout, against
worlds that agree on the spawn outcome and the child's streams and exit
status but may differ in runtime and in incidental exception text,
yield identical stdout and identical exit code. -/
theorem execute_deterministic (cmd : String) (b : Bool) (m1 m2 : String)
    (r1 r2 : Nat) (out err : String) (c : Int) :
    (execute_command cmd none ⟨b, m1, r1, out, err, c⟩).stdout =
      (execute_command cmd none ⟨b, m2, r2, out, err, c⟩).stdout ∧
    (execute_command cmd none ⟨b, m1, r1, out, err, c⟩).exit_code =
      (execute_command cmd none ⟨b, m2, r2, out, err, c⟩).exit_code := by
  unfold execute_command
  cases shlex_split cmd with
  | error e => simp
  | ok args =>
    cases args with
    | nil => simp
    | cons a l => cases b <;> simp

/-! ## Claims about the streaming executor -/

/-- A timeout of `0` is falsy in the guard of the streaming loop, so the
loop with timeout `0` is the loop with no timeout at all. -/
theorem event_loop_timeout_zero (code : Int) :
    ∀ (sched : List IterObs) (outs errs : List String),
      event_loop (some 0) code sched outs errs =
        event_loop none code sched outs errs := by
  intro sched
  induction sched with
  | nil => intro outs errs; rfl
  | cons o rest ih =>
    intro outs errs
    have ht : timeout_triggered (some 0) o.elapsed = false := by
      simp [timeout_triggered]
    have ht2 : timeout_triggered none o.elapsed = false := rfl
    simp only [event_loop, ht, ht2, Bool.false_eq_true, if_false]
    cases o.fault with
    | some m => rfl
    | none =>
      by_cases hx : o.exitObserved
      · simp [hx]
      · simp [hx, ih]

/-- C8: the two modes disagree on a timeout of `0`.  The streaming
generator with timeout `0` behaves exactly as with no timeout (its
guard never fires), while the synchronous executor with timeout `0`
reports an immediate timeout with exit code 124 for every command that
parses, spawns and takes any time at all. -/
theorem timeout_zero_mode_disagreement :
    (∀ (cmd : String) (sw : StreamWorld),
        event_generator cmd (some 0) sw = event_generator cmd none sw) ∧
    (∀ (cmd : String) (w : RunWorld) (a : String) (l : List String),
        shlex_split cmd = Except.ok (a :: l) → w.spawnOk = true →
        0 < w.runtime →
        execute_command cmd (some 0) w = ⟨"", timeout_msg 0, 124⟩) := by
  constructor
  · intro cmd sw
    unfold event_generator
    cases shlex_split cmd with
    | error e => rfl
    | ok args =>
      cases args with
      | nil => rfl
      | cons a l =>
        by_cases hs : sw.spawnOk <;> simp [hs, event_loop_timeout_zero]
  · intro cmd w a l hp hs hr
    unfold execute_command
    rw [hp]
    simp [hs, hr]

/-- C8 witness: `sleep 9` streamed with timeout `0` runs as if
untimed, while the synchronous call times out at once. -/
theorem timeout_zero_mode_disagreement_witness :
    event_generator "sleep 9" (some 0)
        ⟨true, "", [], [], 0,
         [⟨5, none, false, false, false⟩, ⟨9, none, false, false, true⟩]⟩ =
      event_generator "sleep 9" none
        ⟨true, "", [], [], 0,
         [⟨5, none, false, false, false⟩, ⟨9, none, false, false, true⟩]⟩ ∧
    execute_command "sleep 9" (some 0) ⟨true, "", 9, "", "", 0⟩ =
      ⟨"", timeout_msg 0, 124⟩ :=
  ⟨timeout_zero_mode_disagreement.1 "sleep 9"
      ⟨true, "", [], [], 0,
       [⟨5, none, false, false, false⟩, ⟨9, none, false, false, true⟩]⟩,
   timeout_zero_mode_disagreement.2 "sleep 9" ⟨true, "", 9, "", "", 0⟩
      "sleep" ["9"] rfl rfl (by decide)⟩

/-- C4: at any loop iteration where a nonzero timeout has been reached
by the elapsed clock, the iteration kills the process, reaps it, and
only then emits exactly one `error` event with the timeout message
followed by exactly one `done` event with exit code 124, and the trace
ends there. -/
theorem event_loop_timeout_kill_reap_terminal (n : Nat) (code : Int)
    (o : IterObs) (rest : List IterObs) (outs errs : List String)
    (hn : n ≠ 0) (he : n ≤ o.elapsed) :
    event_loop (some n) code (o :: rest) outs errs =
      some [Act.kill, Act.reap, Act.emit (Event.error (timeout_msg n)),
            Act.emit (Event.done 124)] := by
  have ht : timeout_triggered (some n) o.elapsed = true := by
    simp [timeout_triggered, hn, he]
  simp [event_loop, ht]

/-- C4 witness: timeout 2 with the clock at 3 seconds. -/
theorem event_loop_timeout_kill_reap_terminal_witness :
    event_loop (some 2) 0 [⟨3, none, false, false, false⟩] [] [] =
      some [Act.kill, Act.reap, Act.emit (Event.error (timeout_msg 2)),
            Act.emit (Event.done 124)] :=
  event_loop_timeout_kill_reap_terminal 2 0 ⟨3, none, false, false, false⟩ [] [] []
    (by decide) (by decide)

/-- Splitting an action trace splits its event sequence. -/
theorem events_of_append (a b : List Act) :
    events_of (a ++ b) = events_of a ++ events_of b :=
  List.filterMap_append a b Act.eventOf

/-- The actions of one bounded read emit only line events. -/
theorem read_line_events_plain (ready : Bool) (lines : List String)
    (mk : String → Event) (hmk : ∀ s, Event.isPlain (mk s) = true) :
    ∀ e ∈ events_of (read_line ready lines mk).2, Event.isPlain e = true := by
  unfold read_line
  by_cases hr : ready
  · simp only [hr, if_true]
    cases lines with
    | nil => simp [events_of]
    | cons l ls =>
      simp only [events_of, List.filterMap, Act.eventOf]
      intro e he
      simp at he
      rw [he]
      exact hmk _
  · simp [hr, events_of]

/-- Prefixing line events preserves the terminal shape. -/
theorem good_shape_append_plain (pres tl : List Event)
    (hp : ∀ e ∈ pres, Event.isPlain e = true) (h : good_shape tl) :
    good_shape (pres ++ tl) := by
  obtain ⟨body, err, c, rfl, hb, he⟩ := h
  refine ⟨pres ++ body, err, c, by simp [List.append_assoc], ?_, he⟩
  intro e hme
  rcases List.mem_append.mp hme with h1 | h2
  · exact hp e h1
  · exact hb e h2

/-- Every completed run of the streaming loop produces an event
sequence of the terminal shape. -/
theorem event_loop_good_shape (t : Option Nat) (code : Int) :
    ∀ (sched : List IterObs) (outs errs : List String) (acts : List Act),
      event_loop t code sched outs errs = some acts →
      good_shape (events_of acts) := by
  intro sched
  induction sched with
  | nil => intro outs errs acts h; simp [event_loop] at h
  | cons o rest ih =>
    intro outs errs acts h
    rw [event_loop] at h
    by_cases ht : timeout_triggered t o.elapsed
    · simp only [ht, if_true] at h
      cases h
      exact ⟨[], [Event.error (timeout_msg (t.getD 0))], 124, rfl, by simp,
        Or.inr ⟨_, rfl⟩⟩
    · simp only [ht, Bool.false_eq_true, if_false] at h
      cases hf : o.fault with
      | some m =>
        rw [hf] at h
        cases h
        exact ⟨[], [Event.error (fail_msg m)], 1, rfl, by simp, Or.inr ⟨_, rfl⟩⟩
      | none =>
        rw [hf] at h
        by_cases hx : o.exitObserved
        · simp only [hx, if_true] at h
          cases h
          rw [events_of_append, events_of_append]
          refine ⟨events_of (read_line o.stdoutReady outs Event.stdout).2 ++
                    events_of (read_line o.stderrReady errs Event.stderr).2,
                  [], code, by simp [events_of, Act.eventOf, List.append_assoc], ?_,
                  Or.inl rfl⟩
          intro e hme
          rcases List.mem_append.mp hme with h1 | h2
          · exact read_line_events_plain o.stdoutReady outs Event.stdout
              (fun s => rfl) e h1
          · exact read_line_events_plain o.stderrReady errs Event.stderr
              (fun s => rfl) e h2
        · simp only [hx, Bool.false_eq_true, if_false] at h
          rw [Option.map_eq_some'] at h
          obtain ⟨tl, htl, rfl⟩ := h
          rw [events_of_append, events_of_append, List.append_assoc]
          apply good_shape_append_plain _ _
            (read_line_events_plain o.stdoutReady outs Event.stdout (fun s => rfl))
          apply good_shape_append_plain _ _
            (read_line_events_plain o.stderrReady errs Event.stderr (fun s => rfl))
          exact ih _ _ tl htl

/-- C5: on every completed path of the streaming generator — normal
completion, timeout, spawn failure, parse failure, internal fault — the
event sequence consists of line events, then at most one `error` event,
then exactly one `done` event, which is last. -/
theorem event_generator_terminal_shape (cmd : String) (t : Option Nat)
    (sw : StreamWorld) (acts : List Act)
    (h : event_generator cmd t sw = some acts) :
    good_shape (events_of acts) := by
  unfold event_generator at h
  cases hsplit : shlex_split cmd with
  | error e =>
    rw [hsplit] at h
    cases h
    exact ⟨[], [Event.error (fail_msg e)], 1, rfl, by simp, Or.inr ⟨_, rfl⟩⟩
  | ok args =>
    rw [hsplit] at h
    cases args with
    | nil =>
      cases h
      exact ⟨[], [Event.error (fail_msg empty_argv_stream_msg)], 1, rfl, by simp,
        Or.inr ⟨_, rfl⟩⟩
    | cons a l =>
      by_cases hs : sw.spawnOk
      · simp only [hs, if_true] at h
        exact event_loop_good_shape t sw.exitCode sw.sched sw.stdoutLines
          sw.stderrLines acts h
      · simp only [hs, Bool.false_eq_true, if_false] at h
        cases h
        exact ⟨[], [Event.error (fail_msg sw.spawnErrMsg)], 1, rfl, by simp,
          Or.inr ⟨_, rfl⟩⟩

/-- C5 witness: a one-line command finishing cleanly. -/
theorem event_generator_terminal_shape_witness :
    good_shape (events_of [Act.emit (Event.stdout "hi"), Act.emit (Event.done 0)]) :=
  event_generator_terminal_shape "echo hi" none
    ⟨true, "", ["hi\n"], [], 0,
     [⟨0, none, true, false, false⟩, ⟨0, none, false, false, true⟩]⟩
    [Act.emit (Event.stdout "hi"), Act.emit (Event.done 0)] rfl

/-- C3 failing run: the child of `seq 3` writes its three lines and
exits at once, so the first loop iteration reads one line, then the
0.01-second wait observes the exit; the loop stops with two lines still
buffered and the stream carries a single `stdout` event before `done`
instead of three. -/
theorem event_generator_drops_buffered_lines :
    event_generator "seq 3" none
      ⟨true, "", ["1\n", "2\n", "3\n"], [], 0, [⟨0, none, true, false, true⟩]⟩ =
      some [Act.emit (Event.stdout "1"), Act.emit (Event.done 0)] := rfl

/-! ## Claims about the command parser -/

/-- A character with no lexical role: not whitespace, not the escape
character, not a quote. -/
def plain_char (c : Char) : Prop :=
  isWs c = false ∧ c ≠ bslash ∧ c ≠ squote ∧ c ≠ dquote

instance (c : Char) : Decidable (plain_char c) := by
  unfold plain_char
  infer_instance

/-- In the word state, a run of role-free characters is appended to the
current token verbatim. -/
theorem shlex_run_word_plain (pcs : List Char) (h : ∀ c ∈ pcs, plain_char c) :
    ∀ (cs tok : List Char) (q : Bool) (acc : List (List Char)),
      shlex_run (pcs ++ cs) LexState.word tok q acc =
        shlex_run cs LexState.word (tok ++ pcs) q acc := by
  induction pcs with
  | nil => intro cs tok q acc; simp
  | cons c pcs ih =>
    intro cs tok q acc
    obtain ⟨hw, hb, hsq, hdq⟩ := h c (by simp)
    have hstep : shlex_run (c :: (pcs ++ cs)) LexState.word tok q acc =
        shlex_run (pcs ++ cs) LexState.word (tok ++ [c]) q acc := by
      simp [shlex_run, hw, hb, hsq, hdq]
    rw [List.cons_append, hstep, ih (fun d hd => h d (by simp [hd]))]
    simp [List.append_assoc]

/-- Inside a quoted region, characters other than the closing quote
(and, in a double-quoted region, the backslash) are taken verbatim. -/
theorem shlex_run_quote_lit (qc : Char) (w : List Char)
    (h : ∀ c ∈ w, c ≠ qc ∧ (qc = dquote → c ≠ bslash)) :
    ∀ (cs tok : List Char) (acc : List (List Char)),
      shlex_run (w ++ cs) (LexState.quote qc) tok true acc =
        shlex_run cs (LexState.quote qc) (tok ++ w) true acc := by
  induction w with
  | nil => intro cs tok acc; simp
  | cons c w ih =>
    intro cs tok acc
    obtain ⟨hne, hdq⟩ := h c (by simp)
    have hcon : ¬(qc = dquote ∧ c = bslash) := fun hc => (hdq hc.1) hc.2
    have hstep : shlex_run (c :: (w ++ cs)) (LexState.quote qc) tok true acc =
        shlex_run (w ++ cs) (LexState.quote qc) (tok ++ [c]) true acc := by
      simp [shlex_run, hne, hcon]
    rw [List.cons_append, hstep, ih (fun d hd => h d (by simp [hd]))]
    simp [List.append_assoc]

/-- C7: the parser performs shell-style word splitting on the literal
string, without a shell.  Whitespace separates role-free words; a
single- or double-quoted region (embedded whitespace included) is one
argument element; a backslash escapes the following character outside
quotes and escapes the double quote inside a double-quoted region; an
unterminated quotation is a `ParseError`, which `execute_command`
surfaces as a normalized failure with exit code 1 instead of
propagating it. -/
theorem shlex_word_splitting :
    (∀ (w1 w2 : List Char), w1 ≠ [] → w2 ≠ [] →
        (∀ c ∈ w1, plain_char c) → (∀ c ∈ w2, plain_char c) →
        shlex_split (String.mk (w1 ++ ' ' :: w2)) =
          Except.ok [String.mk w1, String.mk w2]) ∧
    (∀ (w : List Char), w ≠ [] → (∀ c ∈ w, c ≠ squote) →
        shlex_split (String.mk (squote :: w ++ [squote])) =
          Except.ok [String.mk w]) ∧
    (∀ (w : List Char), w ≠ [] → (∀ c ∈ w, c ≠ dquote ∧ c ≠ bslash) →
        shlex_split (String.mk (dquote :: w ++ [dquote])) =
          Except.ok [String.mk w]) ∧
    (shlex_split (String.mk ['a', bslash, ' ', 'b']) =
      Except.ok [String.mk ['a', ' ', 'b']]) ∧
    (shlex_split (String.mk [dquote, 'a', bslash, dquote, 'b', dquote]) =
      Except.ok [String.mk ['a', dquote, 'b']]) ∧
    (∀ (w : List Char), (∀ c ∈ w, c ≠ squote) →
        shlex_split (String.mk (squote :: w)) =
          Except.error "No closing quotation") ∧
    (∀ (cmd : String) (e : String) (t : Option Nat) (w : RunWorld),
        shlex_split cmd = Except.error e →
        execute_command cmd t w = ⟨"", fail_msg e, 1⟩) := by
  refine ⟨?_, ?_, ?_, ?_, ?_, ?_, ?_⟩
  · intro w1 w2 h1 h2 hp1 hp2
    cases w1 with
    | nil => exact absurd rfl h1
    | cons a w1t =>
      cases w2 with
      | nil => exact absurd rfl h2
      | cons b w2t =>
        obtain ⟨hwa, hba, hsa, hda⟩ := hp1 a (by simp)
        obtain ⟨hwb, hbb, hsb, hdb⟩ := hp2 b (by simp)
        show (shlex_run ((a :: w1t) ++ ' ' :: b :: w2t)
            LexState.ws [] false []).map (fun ts => ts.map String.mk) = _
        rw [List.cons_append]
        have s1 : shlex_run (a :: (w1t ++ ' ' :: b :: w2t))
            LexState.ws [] false [] =
            shlex_run (w1t ++ ' ' :: b :: w2t) LexState.word [a] false [] := by
          simp [shlex_run, hwa, hba, hsa, hda]
        rw [s1, shlex_run_word_plain w1t (fun d hd => hp1 d (by simp [hd]))]
        have s2 : shlex_run (' ' :: b :: w2t) LexState.word
            ([a] ++ w1t) false [] =
            shlex_run (b :: w2t) LexState.ws [] false [a :: w1t] := by
          simp [shlex_run, isWs]
        rw [s2]
        have s3 : shlex_run (b :: w2t) LexState.ws [] false [a :: w1t] =
            shlex_run w2t LexState.word [b] false [a :: w1t] := by
          simp [shlex_run, hwb, hbb, hsb, hdb]
        rw [s3]
        have s4 := shlex_run_word_plain w2t (fun d hd => hp2 d (by simp [hd]))
          [] [b] false [a :: w1t]
        rw [List.append_nil] at s4
        rw [s4]
        simp [shlex_run]
        rfl
  · intro w hne hq
    cases w with
    | nil => exact absurd rfl hne
    | cons a wt =>
      have hqa : a ≠ squote := hq a (by simp)
      show (shlex_run (squote :: ((a :: wt) ++ [squote]))
          LexState.ws [] false []).map (fun ts => ts.map String.mk) = _
      have s1 : shlex_run (squote :: ((a :: wt) ++ [squote]))
          LexState.ws [] false [] =
          shlex_run ((a :: wt) ++ [squote]) (LexState.quote squote) [] false [] := by
        have hws : isWs squote = false := by decide
        have hsb : ¬(squote = bslash) := by decide
        simp [shlex_run, hws, hsb]
      have hsd : ¬(squote = dquote ∧ a = bslash) := fun hc => by
        exact absurd hc.1 (by decide)
      have s2 : shlex_run ((a :: wt) ++ [squote])
          (LexState.quote squote) [] false [] =
          shlex_run (wt ++ [squote]) (LexState.quote squote) [a] true [] := by
        rw [List.cons_append]
        simp [shlex_run, hqa, hsd]
      rw [s1, s2, shlex_run_quote_lit squote wt
        (fun d hd => ⟨hq d (by simp [hd]), fun hc => absurd hc (by decide)⟩)]
      simp [shlex_run]
      rfl
  · intro w hne hq
    cases w with
    | nil => exact absurd rfl hne
    | cons a wt =>
      obtain ⟨hqa, hba⟩ := hq a (by simp)
      show (shlex_run (dquote :: ((a :: wt) ++ [dquote]))
          LexState.ws [] false []).map (fun ts => ts.map String.mk) = _
      have s1 : shlex_run (dquote :: ((a :: wt) ++ [dquote]))
          LexState.ws [] false [] =
          shlex_run ((a :: wt) ++ [dquote]) (LexState.quote dquote) [] false [] := by
        have hws : isWs dquote = false := by decide
        have hsb : ¬(dquote = bslash) := by decide
        simp [shlex_run, hws, hsb]
      have hsd : ¬(dquote = dquote ∧ a = bslash) := fun hc => hba hc.2
      have s2 : shlex_run ((a :: wt) ++ [dquote])
          (LexState.quote dquote) [] false [] =
          shlex_run (wt ++ [dquote]) (LexState.quote dquote) [a] true [] := by
        rw [List.cons_append]
        simp [shlex_run, hqa, hba]
      rw [s1, s2, shlex_run_quote_lit dquote wt
        (fun d hd => ⟨(hq d (by simp [hd])).1, fun _ => (hq d (by simp [hd])).2⟩)]
      simp [shlex_run]
      rfl
  · rfl
  · rfl
  · intro w hq
    cases w with
    | nil => rfl
    | cons a wt =>
      have hqa : a ≠ squote := hq a (by simp)
      show (shlex_run (squote :: (a :: wt))
          LexState.ws [] false []).map (fun ts => ts.map String.mk) = _
      have s1 : shlex_run (squote :: (a :: wt)) LexState.ws [] false [] =
          shlex_run (a :: wt) (LexState.quote squote) [] false [] := by
        have hws : isWs squote = false := by decide
        have hsb : ¬(squote = bslash) := by decide
        simp [shlex_run, hws, hsb]
      have hsd : ¬(squote = dquote ∧ a = bslash) := fun hc => by
        exact absurd hc.1 (by decide)
      have s2 : shlex_run (a :: wt) (LexState.quote squote) [] false [] =
          shlex_run wt (LexState.quote squote) [a] true [] := by
        simp [shlex_run, hqa, hsd]
      have s3 := shlex_run_quote_lit squote wt
        (fun d hd => ⟨hq d (by simp [hd]), fun hc => absurd hc (by decide)⟩)
        [] [a] []
      rw [List.append_nil] at s3
      rw [s1, s2, s3]
      rfl
  · intro cmd e t w hp
    unfold execute_command
    rw [hp]

/-- C7 witness: concrete instances of each general part — plain
splitting, quoted whitespace in one argument for both quote styles,
and an unterminated quote surfaced by the executor as exit code 1. -/
theorem shlex_word_splitting_witness :
    shlex_split (String.mk (['l', 's'] ++ ' ' :: ['x'])) =
      Except.ok [String.mk ['l', 's'], String.mk ['x']] ∧
    shlex_split (String.mk (squote :: ['b', ' ', 'c'] ++ [squote])) =
      Except.ok [String.mk ['b', ' ', 'c']] ∧
    shlex_split (String.mk (dquote :: ['d', ' ', 'e'] ++ [dquote])) =
      Except.ok [String.mk ['d', ' ', 'e']] ∧
    shlex_split (String.mk (squote :: ['o', 'p', 's'])) =
      Except.error "No closing quotation" ∧
    execute_command (String.mk (squote :: ['o', 'p', 's'])) none
        ⟨true, "", 1, "", "", 0⟩ =
      ⟨"", fail_msg "No closing quotation", 1⟩ :=
  ⟨shlex_word_splitting.1 ['l', 's'] ['x'] (by decide) (by decide)
      (by decide) (by decide),
   shlex_word_splitting.2.1 ['b', ' ', 'c'] (by decide) (by decide),
   shlex_word_splitting.2.2.1 ['d', ' ', 'e'] (by decide) (by decide),
   shlex_word_splitting.2.2.2.2.2.1 ['o', 'p', 's'] (by decide),
   shlex_word_splitting.2.2.2.2.2.2 (String.mk (squote :: ['o', 'p', 's']))
     "No closing quotation" none ⟨true, "", 1, "", "", 0⟩ rfl⟩
